import Mathlib

/-!
# NovaAgent OCR service: shallow embedding and verification

This file embeds the extraction pipeline of `server/ocr_service.py` and the
relevant parts of `server/simple_ocr_service.py` as executable Lean
definitions, and proves or refutes the frozen specification claims about
them.

Python string primitives are modelled over character lists (`String.data`)
so that every definition is executable by kernel reduction; Python floats
are modelled as rationals (`ℚ`), which agrees with the source arithmetic at
every comparison the claims mention.
-/

namespace NovaOCR

/-- Model of Python `str.lower()`. -/
def pyLower (s : String) : String := String.mk (s.data.map Char.toLower)

/-- Model of Python `str.endswith(suffix)`. -/
def pyEndsWith (s suffix : String) : Bool := suffix.data.isSuffixOf s.data

/-- Model of Python `str.startswith(pre)`. -/
def pyStartsWith (s pre : String) : Bool := pre.data.isPrefixOf s.data

/-- Model of Python `str.strip()`: drop whitespace at both ends. -/
def pyStrip (s : String) : String :=
  String.mk (((s.data.dropWhile Char.isWhitespace).reverse.dropWhile Char.isWhitespace).reverse)

/-- A selectable-text span from PyMuPDF `page.get_text("dict")`
(`ocr_service.py` lines 188-198): the source reads `span["text"]` and
`span["bbox"]`. -/
structure Span where
  text : String
  bbox : List ℚ
deriving Repr, DecidableEq

/-- One PaddleOCR result line (`ocr_service.py` lines 106-113): four corner
points and a `(text, confidence)` pair. -/
structure PaddleLine where
  (x1 y1 x2 y2 x3 y3 x4 y4 : ℚ)
  text : String
  conf : ℚ
deriving Repr, DecidableEq

/-- One cell of the tesseract TSV `conf` column as seen by `float(...)`:
either a parseable number or not (e.g. the string `"n/a"`). -/
inductive ConfCell where
  | num (value : ℚ)
  | notNum
deriving Repr, DecidableEq

/-- `float(tsv["conf"][i])` with the source's `except: conf = -1.0`
(`ocr_service.py` lines 127-130). -/
def parseConf : ConfCell → ℚ
  | .num v => v
  | .notNum => -1

/-- One row of the tesseract TSV output used by both services. -/
structure TsvRow where
  text : String
  conf : ConfCell
  (left top width height : ℚ)
deriving Repr, DecidableEq

/-- An engine-level block before the page index is attached: the dicts built
by `_ocr_image_paddle` / `_ocr_image_tesseract` have no `"page"` key; it is
added later by the caller. -/
structure RawBlock where
  text : String
  confidence : ℚ
  bbox : List ℚ
deriving Repr, DecidableEq

/-- A fully-assembled text block as emitted in the response. -/
structure Block where
  text : String
  confidence : ℚ
  bbox : List ℚ
  page : ℕ
deriving Repr, DecidableEq

/-- What the OCR engines would return for one rasterized page image: the
engines are black boxes, so their per-image outputs are inputs of the
model. -/
structure PageImage where
  paddleLines : List PaddleLine
  tessRows : List TsvRow
deriving Repr, DecidableEq

/-- One parsed PDF page as exposed by fitz: its `get_text("text")` string,
its `get_text("dict")` spans, and the engine outputs for its raster. -/
structure Page where
  pageText : String
  spans : List Span
  image : PageImage
deriving Repr, DecidableEq

/-- A `fitz.Document`. `readFails` models `page.get_text` raising inside
`_page_text_ratio`'s `try` block. -/
structure Doc where
  pages : List Page
  readFails : Bool
deriving Repr, DecidableEq

/-- The capability flags probed at import time: `PADDLE_OK`, `TESSERACT_OK`,
`PLUMBER_OK`. -/
structure Capabilities where
  paddleOk : Bool
  tessOk : Bool
  plumberOk : Bool
deriving Repr, DecidableEq

/-- Total selectable-text character count:
`sum(len(page.get_text("text")) for page in doc)`. -/
def totalChars (doc : Doc) : ℕ := (doc.pages.map (fun p => p.pageText.length)).sum

/-- Model of `_page_text_ratio` (`ocr_service.py` lines 79-87):
`min(1.0, chars / (max(1, doc.page_count) * 1000))`, and `0.0` when reading
the text raises. -/
def page_text_frac (doc : Doc) : ℚ :=
  if doc.readFails then 0
  else min 1 ((totalChars doc : ℚ) / (((max 1 doc.pages.length) * 1000 : ℕ) : ℚ))

/-- Model of `_ocr_image_paddle` (`ocr_service.py` lines 96-114): empty when
the engine is unavailable, otherwise one block per result line with
`bbox = [x1, y1, x3, y3]` and the engine confidence taken verbatim. -/
def ocr_image_paddle (paddleOk : Bool) (lines : List PaddleLine) : List RawBlock :=
  if paddleOk then
    lines.map (fun l => { text := l.text, confidence := l.conf, bbox := [l.x1, l.y1, l.x3, l.y3] })
  else []

/-- The confidence stored by `ocr_service._ocr_image_tesseract` line 134:
`conf / 100.0 if conf > 1 else 0.0`. -/
def tessStoredConf (conf : ℚ) : ℚ := if conf > 1 then conf / 100 else 0

/-- Model of `ocr_service._ocr_image_tesseract` (lines 117-137): skip rows
whose text is empty or whitespace-only, parse the confidence with fallback
`-1.0`, store `conf / 100.0 if conf > 1 else 0.0`, box `[x, y, x+w, y+h]`. -/
def ocr_image_tesseract (tessOk : Bool) (rows : List TsvRow) : List RawBlock :=
  if tessOk then
    rows.filterMap (fun r =>
      if r.text = "" ∨ pyStrip r.text = "" then none
      else some { text := r.text,
                  confidence := tessStoredConf (parseConf r.conf),
                  bbox := [r.left, r.top, r.left + r.width, r.top + r.height] })
  else []

/-- Model of `_merge_blocks_to_text` (line 140-141):
`" ".join(b["text"] for b in blocks if b.get("text"))`. -/
def merge_blocks_to_text (blocks : List RawBlock) : String :=
  String.intercalate " " ((blocks.filter (fun b => b.text != "")).map (fun b => b.text))

/-- The two-engine cascade as written at `ocr_service.py` lines 220-223 and
302-304: paddle when available, tesseract only when the paddle result is
empty and tesseract is available. -/
def ocrCascade (caps : Capabilities) (img : PageImage) : List RawBlock :=
  let blocks := if caps.paddleOk then ocr_image_paddle caps.paddleOk img.paddleLines else []
  if blocks.isEmpty && caps.tessOk then ocr_image_tesseract caps.tessOk img.tessRows
  else blocks

/-- A best-effort table in the response shape. -/
structure TableOut where
  page : ℕ
  rows : List (List String)
  strategy : String
deriving Repr, DecidableEq

/-- The per-strategy result record returned by `_extract_digital_pdf` and
`_extract_scanned_pdf`. -/
structure Parsed where
  text : String
  blocks : List Block
  tables : List TableOut
deriving Repr, DecidableEq

/-- Model of `_extract_digital_pdf` (lines 177-204): text is the
newline-join of the per-page `get_text("text")` strings; every span becomes
one block with confidence fixed at `1.0`, page-numbered 1-based. -/
def extract_digital_pdf (doc : Doc) : Parsed :=
  { text := String.intercalate "\n" (doc.pages.map (fun p => p.pageText)),
    blocks := (doc.pages.enum.map (fun pi =>
      pi.2.spans.map (fun s =>
        ({ text := s.text, confidence := 1, bbox := s.bbox, page := pi.1 + 1 } : Block)))).flatten,
    tables := [] }

/-- The page loop of `_extract_scanned_pdf` (lines 211-229): per page, run
the cascade, record the page text, attach the 1-based page number. Returns
(per-page texts, all blocks). -/
def scannedLoop (caps : Capabilities) : ℕ → List Page → List String × List Block
  | _, [] => ([], [])
  | pno, page :: rest =>
    let raw := ocrCascade caps page.image
    let pageBlocks := raw.map (fun b =>
      ({ text := b.text, confidence := b.confidence, bbox := b.bbox, page := pno + 1 } : Block))
    let tail := scannedLoop caps (pno + 1) rest
    (merge_blocks_to_text raw :: tail.1, pageBlocks ++ tail.2)

/-- Model of `_extract_scanned_pdf` (lines 207-235). -/
def extract_scanned_pdf (caps : Capabilities) (doc : Doc) : Parsed :=
  let r := scannedLoop caps 0 doc.pages
  { text := String.intercalate "\n" r.1, blocks := r.2, tables := [] }

/-- A pdfplumber `Table` object: whether `t.cells` is non-empty, and the
rows returned by `t.extract()` (cells may be `None`); `extractFails` models
`t.extract()` raising. -/
structure PlumberTable where
  hasCells : Bool
  rows : List (List (Option String))
  extractFails : Bool
deriving Repr, DecidableEq

/-- One pdfplumber page: the result of `page.find_tables` under each of the
two strategies; `none` models the call raising. -/
structure PlumberPage where
  linesTables : Option (List PlumberTable)
  textTables : Option (List PlumberTable)
deriving Repr, DecidableEq

/-- A pdfplumber document; `opensOk = false` models `pdfplumber.open`
raising (outer `try` of `_extract_tables_plumber`). -/
structure PlumberDoc where
  opensOk : Bool
  pages : List PlumberPage
deriving Repr, DecidableEq

/-- The `for t in table_sets` loop of lines 156-169: a table with no cells
is skipped before `t.extract()` is called; a raise in `t.extract()` aborts
the rest of the page's loop while the tables already appended survive in
the function-level accumulator (the page-level `except` then moves on to
the next page); empty row lists are skipped; a converted table appends its
`(cell or "").strip()` matrix. -/
def plumberTablesLoop (pIdx : ℕ) : List PlumberTable → List TableOut
  | [] => []
  | t :: rest =>
    if !t.hasCells then plumberTablesLoop pIdx rest
    else if t.extractFails then []
    else if t.rows.isEmpty then plumberTablesLoop pIdx rest
    else { page := pIdx + 1,
           rows := t.rows.map (fun row => row.map (fun c => pyStrip (c.getD ""))),
           strategy := "pdfplumber" } :: plumberTablesLoop pIdx rest

/-- One page of the table loop, with the page-level `try`/`except: continue`
of lines 151-171: both strategies' table lists are concatenated before the
per-table loop runs, and a raise by either `find_tables` strategy happens
before any of that page's appends, discarding the whole page's
contribution. -/
def plumberPageTables (pIdx : ℕ) (page : PlumberPage) : List TableOut :=
  match page.linesTables, page.textTables with
  | some ls, some ts => plumberTablesLoop pIdx (ls ++ ts)
  | _, _ => []

/-- The `enumerate(pdf.pages)` loop of `_extract_tables_plumber`. -/
def plumberLoop : ℕ → List PlumberPage → List TableOut
  | _, [] => []
  | pIdx, page :: rest => plumberPageTables pIdx page ++ plumberLoop (pIdx + 1) rest

/-- Model of `_extract_tables_plumber` (lines 144-174). -/
def extract_tables_plumber (plumberOk : Bool) (pdoc : PlumberDoc) : List TableOut :=
  if !plumberOk then []
  else if !pdoc.opensOk then []
  else plumberLoop 0 pdoc.pages

/-- Model of `_guess_mime` (lines 238-244). -/
def guess_mime (name : String) : String :=
  let n := pyLower name
  if pyEndsWith n ".pdf" then "application/pdf"
  else if (pyEndsWith n ".png" || pyEndsWith n ".jpg" || pyEndsWith n ".jpeg" ||
           pyEndsWith n ".webp" || pyEndsWith n ".tif" || pyEndsWith n ".tiff" ||
           pyEndsWith n ".bmp") then "image"
  else "application/octet-stream"

/-- The response schema (`ExtractResponse` of both services); `engine` is the
`metadata["engine"]` entry. -/
structure ExtractResponse where
  file_name : String
  mime_type : Option String
  pages : ℕ
  is_digital_pdf : Option Bool
  text : String
  blocks : List Block
  tables : List TableOut
  engine : Option String
deriving Repr, DecidableEq

/-- A route outcome: a 200 body, or an error status with its `error` field. -/
inductive ExtractResult where
  | ok (resp : ExtractResponse)
  | err (status : ℕ) (error : String)
deriving Repr, DecidableEq

/-- What the uploaded byte payload parses to under each reader. The branch
decision never looks at it: it is routed wholesale to the chosen pipeline. -/
structure Payload where
  doc : Doc
  plumber : PlumberDoc
  img : PageImage
deriving Repr, DecidableEq

/-- The PDF branch of `/extract` (`ocr_service.py` lines 266-295). -/
def pdfPipeline (caps : Capabilities) (fname : String) (doc : Doc) (pdoc : PlumberDoc)
    (wantTables : Bool) : ExtractResult :=
  if (1 : ℚ)/10 < page_text_frac doc then
    let parsed := extract_digital_pdf doc
    let tables := if wantTables then
        (if caps.plumberOk then extract_tables_plumber caps.plumberOk pdoc else [])
      else []
    .ok { file_name := fname, mime_type := some "application/pdf",
          pages := doc.pages.length, is_digital_pdf := some true,
          text := parsed.text, blocks := parsed.blocks, tables := tables,
          engine := some "pymupdf" }
  else
    let parsed := extract_scanned_pdf caps doc
    .ok { file_name := fname, mime_type := some "application/pdf",
          pages := doc.pages.length, is_digital_pdf := some false,
          text := parsed.text, blocks := parsed.blocks, tables := [],
          engine := some "ocr" }

/-- The image branch of `/extract` (lines 297-312). -/
def imagePipeline (caps : Capabilities) (fname : String) (img : PageImage) : ExtractResult :=
  if !(caps.paddleOk || caps.tessOk) then
    .err 500 "No OCR engine available (install paddleocr or tesseract)."
  else
    let blk := ocrCascade caps img
    .ok { file_name := fname, mime_type := some "image", pages := 1,
          is_digital_pdf := none,
          text := merge_blocks_to_text blk,
          blocks := blk.map (fun b =>
            ({ text := b.text, confidence := b.confidence, bbox := b.bbox, page := 1 } : Block)),
          tables := [], engine := some "ocr" }

/-- The `/extract` route of `ocr_service.py` (lines 256-315). -/
def extract (caps : Capabilities) (fname : String) (payload : Payload)
    (wantTables : Bool) : ExtractResult :=
  let mime := guess_mime fname
  if mime = "application/pdf" then pdfPipeline caps fname payload.doc payload.plumber wantTables
  else if mime = "image" then imagePipeline caps fname payload.img
  else .err 400 ("Unsupported file type for " ++ fname)

/-- The `is_digital_pdf` field of a route outcome, when it returned a body. -/
def isDigitalOf : ExtractResult → Option (Option Bool)
  | .ok r => some r.is_digital_pdf
  | .err _ _ => none

/-- The `text` field of a successful route outcome. -/
def respTextOf : ExtractResult → String
  | .ok r => r.text
  | .err _ _ => ""

/-- The `blocks` field of a successful route outcome. -/
def respBlocksOf : ExtractResult → List Block
  | .ok r => r.blocks
  | .err _ _ => []

/-- The row loop of `simple_ocr_service._ocr_image_tesseract` (lines 52-66):
rows with blank text are skipped; `data["conf"][i] / 100.0` raises when the
cell is not numeric, which the source's `except` turns into a `[]` result
(`none` here propagates to that). The stored text is the stripped text. -/
def simpleTessLoop : List TsvRow → Option (List Block)
  | [] => some []
  | r :: rest =>
    let t := pyStrip r.text
    if t = "" then simpleTessLoop rest
    else match r.conf with
      | .notNum => none
      | .num c =>
        (simpleTessLoop rest).map (fun bs =>
          ({ text := t,
             confidence := c / 100,
             bbox := [r.left, r.top, r.left + r.width, r.top + r.height],
             page := 1 } : Block) :: bs)

/-- Model of `simple_ocr_service._ocr_image_tesseract` (lines 42-71). -/
def simple_ocr_image_tesseract (tessOk : Bool) (rows : List TsvRow) : List Block :=
  if tessOk then (simpleTessLoop rows).getD [] else []

/-- Model of `simple_ocr_service._merge_blocks_to_text` (lines 73-75). -/
def simple_merge_blocks_to_text (blocks : List Block) : String :=
  String.intercalate "\n"
    ((blocks.filter (fun b => pyStrip b.text != "")).map (fun b => b.text))

/-- The `/extract` route of `simple_ocr_service.py` (lines 77-124), branching
on the declared content type. `imgOpenFails` models `Image.open` raising (the
source's 500 body carries the exception text, elided here); the no-file and
read-failure guards that precede the branch are not modelled. -/
def simple_extract_text (tessOk : Bool) (fname mime : String)
    (imgOpenFails : Bool) (rows : List TsvRow) : ExtractResult :=
  if pyStartsWith mime "image/" then
    if !tessOk then .err 500 "Tesseract OCR not available"
    else if imgOpenFails then .err 500 "OCR processing failed"
    else
      let blocks := simple_ocr_image_tesseract tessOk rows
      .ok { file_name := fname, mime_type := some mime, pages := 1,
            is_digital_pdf := none, text := simple_merge_blocks_to_text blocks,
            blocks := blocks, tables := [], engine := some "tesseract" }
  else if mime = "application/pdf" then
    .err 501 "PDF processing not available (PyMuPDF not installed)"
  else .err 400 ("Unsupported file type: " ++ mime)

/-- The media-kind decision of the main service, as a function of the
filename alone. -/
inductive Branch where
  | pdf
  | image
  | unsupported
deriving Repr, DecidableEq

/-- Which `/extract` branch a filename selects (the `mime` tests of lines
266, 297, 314). -/
def branchOf (name : String) : Branch :=
  if guess_mime name = "application/pdf" then .pdf
  else if guess_mime name = "image" then .image
  else .unsupported

/-! ## Theorems -/

/-- C2: for one rasterized page, the OCR cascade tries the primary engine
(paddle) first when available, invokes the secondary engine (tesseract) only
when the primary is unavailable or returned zero blocks, and uses the
winning engine's block list verbatim; the blocks of one page never mix the
two engines' output, and when no engine is available or both return empty
the page yields zero blocks and empty text. -/
theorem c2_ocr_cascade (caps : Capabilities) (img : PageImage) :
    (caps.paddleOk = true → ocr_image_paddle caps.paddleOk img.paddleLines ≠ [] →
      ocrCascade caps img = ocr_image_paddle caps.paddleOk img.paddleLines) ∧
    ((caps.paddleOk = false ∨ ocr_image_paddle caps.paddleOk img.paddleLines = []) →
      caps.tessOk = true →
      ocrCascade caps img = ocr_image_tesseract caps.tessOk img.tessRows) ∧
    (ocr_image_paddle caps.paddleOk img.paddleLines = [] →
      ocr_image_tesseract caps.tessOk img.tessRows = [] →
      ocrCascade caps img = [] ∧ merge_blocks_to_text (ocrCascade caps img) = "") ∧
    (ocrCascade caps img = ocr_image_paddle caps.paddleOk img.paddleLines ∨
     ocrCascade caps img = ocr_image_tesseract caps.tessOk img.tessRows ∨
     ocrCascade caps img = []) := by
  obtain ⟨p, t, pl⟩ := caps
  refine ⟨?_, ?_, ?_, ?_⟩
  · intro hp hne
    subst hp
    have hie : (ocr_image_paddle true img.paddleLines).isEmpty = false := by
      simpa [List.isEmpty_iff] using hne
    simp [ocrCascade, hie]
  · intro hor ht
    subst ht
    have hemp : (if p = true then ocr_image_paddle p img.paddleLines else []) = [] := by
      rcases hor with h | h
      · subst h; rfl
      · cases p <;> simp [h]
    simp [ocrCascade, hemp]
  · intro hP hT
    have hcas : ocrCascade ⟨p, t, pl⟩ img = [] := by
      have hemp : (if p = true then ocr_image_paddle p img.paddleLines else []) = [] := by
        cases p <;> simp [hP]
      simp [ocrCascade, hemp, hT]
    exact ⟨hcas, by rw [hcas]; rfl⟩
  · by_cases hpe : ocr_image_paddle p img.paddleLines = []
    · have hemp : (if p = true then ocr_image_paddle p img.paddleLines else []) = [] := by
        cases p <;> simp [hpe]
      cases t
      · refine Or.inr (Or.inr ?_)
        simp [ocrCascade, hemp]
      · refine Or.inr (Or.inl ?_)
        simp [ocrCascade, hemp]
    · have hp : p = true := by
        cases p
        · exact absurd rfl hpe
        · rfl
      subst hp
      refine Or.inl ?_
      have hie : (ocr_image_paddle true img.paddleLines).isEmpty = false := by
        simpa [List.isEmpty_iff] using hpe
      simp [ocrCascade, hie]

/-- Concrete page image for the C2 witness: one paddle line. -/
def wImg : PageImage :=
  { paddleLines := [{ x1 := 0, y1 := 0, x2 := 1, y2 := 0, x3 := 1, y3 := 1, x4 := 0, y4 := 1,
                      text := "hi", conf := 9/10 }],
    tessRows := [] }

/-- Witness for C2 at a concrete input: with paddle available and returning
one line, the cascade returns exactly paddle's block. -/
theorem c2_witness :
    ocrCascade ⟨true, false, false⟩ wImg =
      [{ text := "hi", confidence := 9/10, bbox := [0, 0, 1, 1] }] :=
  ((c2_ocr_cascade ⟨true, false, false⟩ wImg).1 rfl (by decide)).trans rfl

/-- C9: the classification quantity is a deterministic function of the total
selectable-character count and page count, and for a fixed page count it is
monotonically non-decreasing in the character count. -/
theorem c9_monotone (d1 d2 : Doc) (h1 : d1.readFails = false) (h2 : d2.readFails = false)
    (hp : d1.pages.length = d2.pages.length) (hc : totalChars d1 ≤ totalChars d2) :
    page_text_frac d1 =
      min 1 ((totalChars d1 : ℚ) / (((max 1 d1.pages.length) * 1000 : ℕ) : ℚ)) ∧
    page_text_frac d1 ≤ page_text_frac d2 := by
  constructor
  · simp [page_text_frac, h1]
  · simp only [page_text_frac, h1, h2, Bool.false_eq_true, if_false]
    rw [hp]
    refine min_le_min le_rfl ?_
    refine (div_le_div_iff_of_pos_right ?_).mpr ?_
    · exact_mod_cast Nat.mul_pos (lt_of_lt_of_le one_pos (le_max_left 1 _)) (by norm_num)
    · exact_mod_cast hc

/-- Concrete one-page documents for the C9 witness. -/
def wDocA : Doc := { pages := [{ pageText := "a", spans := [], image := ⟨[], []⟩ }], readFails := false }

/-- Second concrete document for the C9 witness, with more characters. -/
def wDocB : Doc := { pages := [{ pageText := "abc", spans := [], image := ⟨[], []⟩ }], readFails := false }

/-- Witness for C9 at concrete one-page documents with 1 and 3 characters. -/
theorem c9_witness : page_text_frac wDocA ≤ page_text_frac wDocB :=
  (c9_monotone wDocA wDocB rfl rfl rfl (by decide)).2

/-- A pdfplumber table that converts successfully. -/
def goodTable : PlumberTable := { hasCells := true, rows := [[some "x"]], extractFails := false }

/-- C6 counterexample document: on its single page the line strategy finds a
convertible table and the text strategy raises. -/
def c6doc : PlumberDoc :=
  { opensOk := true, pages := [{ linesTables := some [goodTable], textTables := none }] }

/-- C6 is false as stated: on `c6doc` the line strategy found a table that
converts to one result (as the per-table loop on it alone shows), yet the
extraction collects nothing, because the page-level `except` discards the
whole page when the other strategy raises. -/
theorem c6_counterexample :
    plumberTablesLoop 0 [goodTable] =
      [{ page := 1, rows := [["x"]], strategy := "pdfplumber" }] ∧
    extract_tables_plumber true c6doc = [] :=
  ⟨rfl, rfl⟩

/-- A `t.extract()` raise ends the page's per-table loop: the tables
converted before the raising table are kept, the rest are skipped. -/
theorem plumberTablesLoop_fail (pIdx : ℕ) (t : PlumberTable) (ht : t.hasCells = true)
    (hte : t.extractFails = true) :
    ∀ (us vs : List PlumberTable),
      (∀ u ∈ us, ¬(u.hasCells = true ∧ u.extractFails = true)) →
      plumberTablesLoop pIdx (us ++ t :: vs) = plumberTablesLoop pIdx us := by
  intro us
  induction us with
  | nil =>
    intro vs _
    simp [plumberTablesLoop, ht, hte]
  | cons u us ih =>
    intro vs hok
    have hu := hok u (List.mem_cons_self u us)
    have hok' : ∀ v ∈ us, ¬(v.hasCells = true ∧ v.extractFails = true) :=
      fun v hv => hok v (List.mem_cons_of_mem u hv)
    by_cases hc : u.hasCells = true
    · have hue : u.extractFails = false := by
        cases hxe : u.extractFails
        · rfl
        · exact absurd ⟨hc, hxe⟩ hu
      cases hre : u.rows.isEmpty <;>
        simp [plumberTablesLoop, hc, hue, hre, ih vs hok']
    · have hc' : u.hasCells = false := by
        cases hxc : u.hasCells
        · rfl
        · exact absurd hxc hc
      simp [plumberTablesLoop, hc', ih vs hok']

/-- Replacing one page by another with identical per-page contribution (at
every index) leaves the whole table loop unchanged: the pages are
independent units. -/
theorem plumberLoop_congr_page (p q : PlumberPage)
    (h : ∀ k, plumberPageTables k p = plumberPageTables k q)
    (pre post : List PlumberPage) :
    ∀ n, plumberLoop n (pre ++ p :: post) = plumberLoop n (pre ++ q :: post) := by
  induction pre with
  | nil =>
    intro n
    simp only [List.nil_append, plumberLoop]
    rw [h n]
  | cons r pre ih =>
    intro n
    simp only [List.cons_append, plumberLoop]
    exact congrArg (plumberPageTables n r ++ ·) (ih (n + 1))

/-- C6 amended: an exception raised by a `find_tables` strategy on one page
discards that entire page's table contribution (including the other
strategy's finds on the same page) — the page behaves as if it had no
tables; an exception raised by a table's `t.extract()` keeps the page's
tables already appended before it and skips the page's remaining tables.
In both cases extraction continues unaffected for all other pages. -/
theorem c6_amended (plumberOk opensOk : Bool) (pre post : List PlumberPage)
    (p : PlumberPage) (ls ts us vs : List PlumberTable) (t : PlumberTable)
    (hfail : p.linesTables = none ∨ p.textTables = none)
    (hsplit : ls ++ ts = us ++ t :: vs)
    (hok : ∀ u ∈ us, ¬(u.hasCells = true ∧ u.extractFails = true))
    (ht : t.hasCells = true) (hte : t.extractFails = true) :
    (extract_tables_plumber plumberOk ⟨opensOk, pre ++ p :: post⟩ =
      extract_tables_plumber plumberOk
        ⟨opensOk, pre ++ ({ linesTables := some [], textTables := some [] } : PlumberPage) :: post⟩) ∧
    (extract_tables_plumber plumberOk
        ⟨opensOk, pre ++ ({ linesTables := some ls, textTables := some ts } : PlumberPage) :: post⟩ =
      extract_tables_plumber plumberOk
        ⟨opensOk, pre ++ ({ linesTables := some us, textTables := some [] } : PlumberPage) :: post⟩) := by
  constructor
  · cases plumberOk
    · rfl
    cases opensOk
    · rfl
    simp only [extract_tables_plumber]
    refine plumberLoop_congr_page p _ ?_ pre post 0
    intro k
    have h1 : plumberPageTables k p = [] := by
      obtain ⟨pl, pt⟩ := p
      rcases hfail with h | h
      · replace h : pl = none := h
        subst h
        rfl
      · replace h : pt = none := h
        subst h
        cases pl <;> rfl
    rw [h1]
    rfl
  · cases plumberOk
    · rfl
    cases opensOk
    · rfl
    simp only [extract_tables_plumber]
    refine plumberLoop_congr_page _ _ ?_ pre post 0
    intro k
    simp only [plumberPageTables]
    rw [hsplit, List.append_nil]
    exact plumberTablesLoop_fail k t ht hte us vs hok

/-- A page whose line strategy raises but whose text strategy finds a table. -/
def c6page2 : PlumberPage := { linesTables := none, textTables := some [goodTable] }

/-- A table whose `t.extract()` raises. -/
def c6failTable : PlumberTable := { hasCells := true, rows := [], extractFails := true }

/-- Witness for C6 amended at concrete inputs: the page with a raising
strategy contributes nothing, and the page whose second table raises in
`t.extract()` keeps the table converted before it. -/
theorem c6_witness :
    extract_tables_plumber true ⟨true, [c6page2]⟩ = [] ∧
    extract_tables_plumber true
        ⟨true, [{ linesTables := some [goodTable], textTables := some [c6failTable] }]⟩ =
      [{ page := 1, rows := [["x"]], strategy := "pdfplumber" }] := by
  have h := c6_amended true true [] [] c6page2 [goodTable] [c6failTable] [goodTable] []
    c6failTable (Or.inl rfl) rfl (by decide) rfl rfl
  exact ⟨h.1.trans rfl, h.2.trans rfl⟩

/-- C7: a PDF with zero pages is processed without error and yields pages 0,
empty text, empty blocks and empty tables (the ratio is 0, so the scanned
path runs over no pages). -/
theorem c7_zero_pages (caps : Capabilities) (fname : String) (payload : Payload)
    (wantTables : Bool) (hpdf : guess_mime fname = "application/pdf")
    (hz : payload.doc.pages = []) :
    extract caps fname payload wantTables =
      .ok { file_name := fname, mime_type := some "application/pdf", pages := 0,
            is_digital_pdf := some false, text := "", blocks := [], tables := [],
            engine := some "ocr" } := by
  have hfrac : page_text_frac payload.doc = 0 := by
    rcases hb : payload.doc.readFails with _ | _
    · simp [page_text_frac, hb, totalChars, hz]
    · simp [page_text_frac, hb]
  have hnd : ¬ ((1 : ℚ)/10 < page_text_frac payload.doc) := by
    rw [hfrac]; norm_num
  have hsc : extract_scanned_pdf caps payload.doc = { text := "", blocks := [], tables := [] } := by
    simp [extract_scanned_pdf, hz, scannedLoop, String.intercalate]
  simp only [extract, pdfPipeline, hpdf, if_pos]
  rw [if_neg hnd, hsc]
  simp [hz]

/-- Concrete zero-page payload for the C7 witness. -/
def wZeroPayload : Payload :=
  { doc := { pages := [], readFails := false }, plumber := ⟨true, []⟩, img := ⟨[], []⟩ }

/-- Witness for C7: the zero-page document named `z.pdf`. -/
theorem c7_witness :
    extract ⟨true, true, true⟩ "z.pdf" wZeroPayload true =
      .ok { file_name := "z.pdf", mime_type := some "application/pdf", pages := 0,
            is_digital_pdf := some false, text := "", blocks := [], tables := [],
            engine := some "ocr" } :=
  c7_zero_pages ⟨true, true, true⟩ "z.pdf" wZeroPayload true (by decide) rfl

/-- C8: a file whose kind is neither pdf nor image gets a 400 whose `error`
mentions the unsupported type, identically for every payload and capability
set (so no engine is invoked and no processing is attempted); the simple
service behaves the same on its content-type branch. -/
theorem c8_unsupported (caps caps' : Capabilities) (fname : String)
    (payload payload' : Payload) (wt wt' : Bool) (mime : String)
    (tessOk imgOpenFails : Bool) (rows : List TsvRow)
    (h1 : guess_mime fname ≠ "application/pdf") (h2 : guess_mime fname ≠ "image")
    (h3 : pyStartsWith mime "image/" = false) (h4 : mime ≠ "application/pdf") :
    extract caps fname payload wt = .err 400 ("Unsupported file type for " ++ fname) ∧
    extract caps fname payload wt = extract caps' fname payload' wt' ∧
    ("Unsupported file type".data.isPrefixOf ("Unsupported file type for " ++ fname).data
      = true) ∧
    simple_extract_text tessOk fname mime imgOpenFails rows =
      .err 400 ("Unsupported file type: " ++ mime) := by
  have he : ∀ c pp w, extract c fname pp w = .err 400 ("Unsupported file type for " ++ fname) := by
    intro c pp w
    simp [extract, h1, h2]
  refine ⟨he caps payload wt, (he caps payload wt).trans (he caps' payload' wt').symm, ?_, ?_⟩
  · rw [List.isPrefixOf_iff_prefix, String.data_append]
    refine List.IsPrefix.trans ?_ (List.prefix_append _ _)
    rw [← List.isPrefixOf_iff_prefix]
    decide
  · simp [simple_extract_text, h3, h4]

/-- Witness for C8: a `.txt` upload against both services. -/
theorem c8_witness :
    extract ⟨true, true, true⟩ "notes.txt" wZeroPayload true =
      .err 400 "Unsupported file type for notes.txt" :=
  ((c8_unsupported ⟨true, true, true⟩ ⟨false, false, false⟩ "notes.txt"
    wZeroPayload wZeroPayload true false "text/plain" true false []
    (by decide) (by decide) (by decide) (by decide)).1).trans (by decide)

/-- C10: the media-kind branch of the main service is a function of the
filename alone: a lowercased `.pdf` suffix always selects the PDF pipeline,
and whichever branch is selected, the payload bytes enter only through that
pipeline — two uploads with the same name take the same branch whatever
their contents. -/
theorem c10_branch (caps : Capabilities) (fname : String) (wt : Bool) (p p' : Payload) :
    (pyEndsWith (pyLower fname) ".pdf" = true → branchOf fname = .pdf) ∧
    (branchOf fname = .pdf →
      extract caps fname p wt = pdfPipeline caps fname p.doc p.plumber wt) ∧
    (branchOf fname = .image → extract caps fname p wt = imagePipeline caps fname p.img) ∧
    (branchOf fname = .unsupported →
      extract caps fname p wt = .err 400 ("Unsupported file type for " ++ fname) ∧
      extract caps fname p wt = extract caps fname p' wt) := by
  by_cases h1 : guess_mime fname = "application/pdf"
  · refine ⟨fun _ => by simp [branchOf, h1], fun _ => by simp [extract, h1], ?_, ?_⟩
    · intro h; rw [branchOf, if_pos h1] at h; cases h
    · intro h; rw [branchOf, if_pos h1] at h; cases h
  · by_cases h2 : guess_mime fname = "image"
    · refine ⟨?_, ?_, fun _ => by simp [extract, h1, h2], ?_⟩
      · intro h
        exact absurd (by simp [guess_mime, h]) h1
      · intro h; rw [branchOf, if_neg h1, if_pos h2] at h; cases h
      · intro h; rw [branchOf, if_neg h1, if_pos h2] at h; cases h
    · refine ⟨?_, ?_, ?_, ?_⟩
      · intro h
        exact absurd (by simp [guess_mime, h]) h1
      · intro h; rw [branchOf, if_neg h1, if_neg h2] at h; cases h
      · intro h; rw [branchOf, if_neg h1, if_neg h2] at h; cases h
      · intro _
        constructor <;> simp [extract, h1, h2]

/-- Payload used by branch-independence witnesses. -/
def wPdfPayload : Payload :=
  { doc := { pages := [], readFails := true }, plumber := ⟨false, []⟩, img := ⟨[], []⟩ }

/-- Witness for C10: an uppercase `.PDF` name routes to the PDF pipeline. -/
theorem c10_witness :
    extract ⟨false, false, false⟩ "DOC.PDF" wPdfPayload false =
      pdfPipeline ⟨false, false, false⟩ "DOC.PDF" wPdfPayload.doc wPdfPayload.plumber false :=
  (c10_branch ⟨false, false, false⟩ "DOC.PDF" false wPdfPayload wPdfPayload).2.1
    ((c10_branch ⟨false, false, false⟩ "DOC.PDF" false wPdfPayload wPdfPayload).1 (by decide))

/-- Tesseract TSV row with a parseable confidence of 87. -/
def row87 : TsvRow := { text := "a", conf := .num 87, left := 0, top := 0, width := 1, height := 1 }

/-- Tesseract TSV row with an unparsable confidence (e.g. "n/a"). -/
def rowNA : TsvRow := { text := "b", conf := .notNum, left := 0, top := 0, width := 1, height := 1 }

/-- Tesseract TSV row with native confidence 1, where the claim and the code
diverge. -/
def c5row : TsvRow := { text := "x", conf := .num 1, left := 0, top := 0, width := 1, height := 1 }

/-- C5 is false as stated: a native confidence of 1 is stored as 0.0, not as
1/100, because the source divides only when `conf > 1`. -/
theorem c5_counterexample :
    (ocr_image_tesseract true [c5row]).map (fun b => b.confidence) = [0] ∧
    (1 : ℚ)/100 ≠ 0 :=
  ⟨rfl, by norm_num⟩

/-- C5 amended: the stored confidence is the native confidence divided by
100 when the native value exceeds 1 and 0.0 otherwise; an unparsable native
confidence becomes -1 and is hence stored as 0.0. In particular "87" is
stored as 0.87 and "n/a" as 0.0. -/
theorem c5_amended (tessOk : Bool) (rows : List TsvRow) (b : RawBlock)
    (hb : b ∈ ocr_image_tesseract tessOk rows) :
    (∃ r ∈ rows, b.text = r.text ∧
      b.confidence = if parseConf r.conf > 1 then parseConf r.conf / 100 else 0) ∧
    (ocr_image_tesseract true [row87]).map (fun x => x.confidence) = [87/100] ∧
    (ocr_image_tesseract true [rowNA]).map (fun x => x.confidence) = [0] := by
  refine ⟨?_, rfl, rfl⟩
  simp only [ocr_image_tesseract] at hb
  by_cases ht : tessOk = true
  · rw [if_pos ht] at hb
    obtain ⟨r, hr, hfr⟩ := List.mem_filterMap.mp hb
    refine ⟨r, hr, ?_⟩
    by_cases hg : r.text = "" ∨ pyStrip r.text = ""
    · rw [if_pos hg] at hfr; cases hfr
    · rw [if_neg hg] at hfr
      cases hfr
      exact ⟨rfl, rfl⟩
  · rw [if_neg ht] at hb
    cases hb

/-- The block the main service produces from `row87`. -/
def b87 : RawBlock :=
  { text := "a", confidence := tessStoredConf (parseConf (.num 87)), bbox := [0, 0, 0 + 1, 0 + 1] }

/-- Witness for C5 amended at the concrete rows of Scenario C. -/
theorem c5_witness :
    (ocr_image_tesseract true [row87]).map (fun x => x.confidence) = [87/100] :=
  (c5_amended true [row87] b87
    (by rw [show ocr_image_tesseract true [row87] = [b87] from rfl]
        exact List.mem_singleton_self _)).2.1

/-- C4 counterexample document: a digital page containing one
whitespace-only span. -/
def c4doc : Doc :=
  { pages := [{ pageText := "x",
                spans := [{ text := " ", bbox := [0, 0, 1, 1] }],
                image := ⟨[], []⟩ }],
    readFails := false }

/-- C4 is false as stated: the digital path copies span text verbatim, so a
whitespace-only span is emitted as a block whose trimmed text is empty. -/
theorem c4_counterexample :
    (extract_digital_pdf c4doc).blocks =
      [{ text := " ", confidence := 1, bbox := [0, 0, 1, 1], page := 1 }] ∧
    pyStrip " " = "" :=
  ⟨rfl, rfl⟩

/-- C4 amended: blocks emitted by the main service's tesseract path have
non-blank text and, whenever the native confidence is at most 100,
confidence within [0, 1]; blocks of the digital path always carry
confidence exactly 1, but their text is the span text verbatim and may be
whitespace-only. -/
theorem c4_amended (tessOk : Bool) (rows : List TsvRow) (doc : Doc)
    (hconf : ∀ r ∈ rows, parseConf r.conf ≤ 100) :
    (∀ b ∈ ocr_image_tesseract tessOk rows,
      pyStrip b.text ≠ "" ∧ 0 ≤ b.confidence ∧ b.confidence ≤ 1) ∧
    (∀ b ∈ (extract_digital_pdf doc).blocks, b.confidence = 1) := by
  constructor
  · intro b hb
    simp only [ocr_image_tesseract] at hb
    by_cases ht : tessOk = true
    · rw [if_pos ht] at hb
      obtain ⟨r, hr, hfr⟩ := List.mem_filterMap.mp hb
      by_cases hg : r.text = "" ∨ pyStrip r.text = ""
      · rw [if_pos hg] at hfr; cases hfr
      · rw [if_neg hg] at hfr
        push_neg at hg
        cases hfr
        refine ⟨hg.2, ?_, ?_⟩
        · unfold tessStoredConf
          by_cases hc : parseConf r.conf > 1
          · rw [if_pos hc]
            exact div_nonneg (by linarith) (by norm_num)
          · rw [if_neg hc]
        · unfold tessStoredConf
          by_cases hc : parseConf r.conf > 1
          · rw [if_pos hc, div_le_one (by norm_num)]
            exact hconf r hr
          · rw [if_neg hc]; norm_num
    · rw [if_neg ht] at hb
      cases hb
  · intro b hb
    simp only [extract_digital_pdf] at hb
    obtain ⟨l, hl, hbl⟩ := List.mem_flatten.mp hb
    obtain ⟨pi, _, rfl⟩ := List.mem_map.mp hl
    obtain ⟨s, _, rfl⟩ := List.mem_map.mp hbl
    rfl

/-- Witness for C4 amended at the concrete row `row87`. -/
theorem c4_witness :
    pyStrip b87.text ≠ "" ∧ 0 ≤ b87.confidence ∧ b87.confidence ≤ 1 :=
  (c4_amended true [row87] { pages := [], readFails := false }
    (by intro r hr
        rw [List.mem_singleton] at hr
        subst hr
        norm_num [parseConf, row87])).1 b87
    (by rw [show ocr_image_tesseract true [row87] = [b87] from rfl]
        exact List.mem_singleton_self _)

/-- C1: for a PDF upload, the digital verdict holds exactly when
`min(1, totalChars / (max(1, pageCount) * 1000)) > 0.1`, and a read failure
gives ratio 0 and the scanned verdict. -/
theorem c1_classification (caps : Capabilities) (fname : String) (payload : Payload)
    (wantTables : Bool) (hpdf : guess_mime fname = "application/pdf") :
    (payload.doc.readFails = false →
      (isDigitalOf (extract caps fname payload wantTables) = some (some true) ↔
        (1 : ℚ)/10 <
          min 1 ((totalChars payload.doc : ℚ) /
            (((max 1 payload.doc.pages.length) * 1000 : ℕ) : ℚ)))) ∧
    (payload.doc.readFails = true →
      page_text_frac payload.doc = 0 ∧
      isDigitalOf (extract caps fname payload wantTables) = some (some false)) := by
  have hex : extract caps fname payload wantTables =
      pdfPipeline caps fname payload.doc payload.plumber wantTables := by
    simp [extract, hpdf]
  constructor
  · intro hrf
    have hfq : page_text_frac payload.doc =
        min 1 ((totalChars payload.doc : ℚ) /
          (((max 1 payload.doc.pages.length) * 1000 : ℕ) : ℚ)) := by
      simp [page_text_frac, hrf]
    rw [hex]
    unfold pdfPipeline
    rw [← hfq]
    by_cases hlt : (1 : ℚ)/10 < page_text_frac payload.doc
    · rw [if_pos hlt]
      simpa [isDigitalOf] using hlt
    · rw [if_neg hlt]
      simpa [isDigitalOf] using hlt
  · intro hrt
    have hfrac : page_text_frac payload.doc = 0 := by simp [page_text_frac, hrt]
    refine ⟨hfrac, ?_⟩
    rw [hex]
    unfold pdfPipeline
    rw [if_neg (by rw [hfrac]; norm_num)]
    rfl

/-- One-page document with 150 characters of selectable text. -/
def wDigitalDoc : Doc :=
  { pages := [{ pageText := String.mk (List.replicate 150 'a'), spans := [], image := ⟨[], []⟩ }],
    readFails := false }

/-- Payload wrapping `wDigitalDoc`. -/
def wDigitalPayload : Payload := { doc := wDigitalDoc, plumber := ⟨true, []⟩, img := ⟨[], []⟩ }

set_option maxRecDepth 20000 in
/-- Witness for C1: 150 chars on one page gives ratio 0.15 > 0.1, hence a
digital verdict. -/
theorem c1_witness :
    isDigitalOf (extract ⟨true, true, true⟩ "a.pdf" wDigitalPayload true) = some (some true) := by
  have h := (c1_classification ⟨true, true, true⟩ "a.pdf" wDigitalPayload true (by decide)).1 rfl
  refine h.mpr ?_
  have ht : totalChars wDigitalPayload.doc = 150 := by decide
  have hl : wDigitalPayload.doc.pages.length = 1 := by decide
  rw [ht, hl]
  norm_num

/-- C3 counterexample document: a digital page whose full text is 150 `a`s
but whose dict spans hold only the text `X`. -/
def c3doc : Doc :=
  { pages := [{ pageText := String.mk (List.replicate 150 'a'),
                spans := [{ text := "X", bbox := [0, 0, 1, 1] }],
                image := ⟨[], []⟩ }],
    readFails := false }

/-- Payload wrapping `c3doc`. -/
def c3payload : Payload := { doc := c3doc, plumber := ⟨true, []⟩, img := ⟨[], []⟩ }

set_option maxRecDepth 20000 in
/-- C3 is false as stated: on the digital path `text` comes from the pages'
`get_text("text")` strings while `blocks` come from the `get_text("dict")`
spans, and the two can diverge; here the response text is 150 `a`s while the
newline-join of the block texts is `X`. -/
theorem c3_counterexample :
    isDigitalOf (extract ⟨true, true, true⟩ "d.pdf" c3payload false) = some (some true) ∧
    respTextOf (extract ⟨true, true, true⟩ "d.pdf" c3payload false) ≠
      String.intercalate "\n"
        ((respBlocksOf (extract ⟨true, true, true⟩ "d.pdf" c3payload false)).map
          (fun b => b.text)) := by
  have hm : guess_mime "d.pdf" = "application/pdf" := by decide
  have hex : extract ⟨true, true, true⟩ "d.pdf" c3payload false =
      pdfPipeline ⟨true, true, true⟩ "d.pdf" c3doc c3payload.plumber false := by
    simp [extract, hm, c3payload]
  have hlt : (1 : ℚ)/10 < page_text_frac c3doc := by
    have ht : totalChars c3doc = 150 := by decide
    have hl : c3doc.pages.length = 1 := by decide
    have hrf : c3doc.readFails = false := rfl
    simp only [page_text_frac, ht, hl, hrf, Bool.false_eq_true, if_false]
    norm_num
  rw [hex]
  unfold pdfPipeline
  rw [if_pos hlt]
  exact ⟨rfl, by decide⟩

/-- Every block produced by the scanned loop started at page index `pno`
carries a 1-based page number of at least `pno + 1`. -/
theorem scannedLoop_page_lb (caps : Capabilities) :
    ∀ (pages : List Page) (pno : ℕ) (b : Block),
      b ∈ (scannedLoop caps pno pages).2 → pno + 1 ≤ b.page := by
  intro pages
  induction pages with
  | nil => intro pno b hb; cases hb
  | cons pg rest ih =>
    intro pno b hb
    simp only [scannedLoop] at hb
    rcases List.mem_append.mp hb with h | h
    · obtain ⟨rb, _, rfl⟩ := List.mem_map.mp h
      exact le_refl _
    · exact le_trans (Nat.le_succ _) (ih (pno + 1) b h)

/-- The page texts recorded by the scanned loop are exactly the space-joins
of the non-empty texts of that page's blocks, page by page. -/
theorem scannedLoop_texts (caps : Capabilities) :
    ∀ (pages : List Page) (pno : ℕ),
      (scannedLoop caps pno pages).1 =
        (List.range pages.length).map (fun i =>
          String.intercalate " "
            ((((scannedLoop caps pno pages).2.filter (fun b => b.page == pno + i + 1)).filter
              (fun b => b.text != "")).map (fun b => b.text))) := by
  intro pages
  induction pages with
  | nil => intro pno; rfl
  | cons pg rest ih =>
    intro pno
    simp only [scannedLoop, List.length_cons, List.range_succ_eq_map, List.map_cons,
      List.map_map]
    congr 1
    · -- head page
      rw [Nat.add_zero, List.filter_append]
      have h1 : ((ocrCascade caps pg.image).map (fun b =>
          ({ text := b.text, confidence := b.confidence, bbox := b.bbox,
             page := pno + 1 } : Block))).filter (fun b => b.page == pno + 1) =
          (ocrCascade caps pg.image).map (fun b =>
          ({ text := b.text, confidence := b.confidence, bbox := b.bbox,
             page := pno + 1 } : Block)) := by
        rw [List.filter_eq_self]
        intro b hb
        obtain ⟨rb, _, rfl⟩ := List.mem_map.mp hb
        simp
      have h2 : (scannedLoop caps (pno + 1) rest).2.filter (fun b => b.page == pno + 1) = [] := by
        rw [List.filter_eq_nil_iff]
        intro b hb
        have := scannedLoop_page_lb caps rest (pno + 1) b hb
        simp only [beq_iff_eq]
        omega
      rw [h1, h2, List.append_nil, List.filter_map, List.map_map]
      rfl
    · -- remaining pages
      rw [ih (pno + 1)]
      refine List.map_congr_left ?_
      intro i _
      simp only [Function.comp_apply]
      have h1 : ((ocrCascade caps pg.image).map (fun b =>
          ({ text := b.text, confidence := b.confidence, bbox := b.bbox,
             page := pno + 1 } : Block))).filter (fun b => b.page == pno + Nat.succ i + 1) = [] := by
        rw [List.filter_eq_nil_iff]
        intro b hb
        obtain ⟨rb, _, rfl⟩ := List.mem_map.mp hb
        simp only [beq_iff_eq]
        omega
      rw [List.filter_append, h1, List.nil_append]
      have h2 : pno + Nat.succ i + 1 = pno + 1 + i + 1 := by omega
      rw [h2]

/-- C3 amended: on the scanned/OCR path the response text is exactly
reconstructible from the emitted blocks — for each page in order, the
space-join of that page's non-empty block texts, newline-joined across
pages (a page with no blocks contributes an empty line). On the digital
path the text is the newline-join of per-page selectable text, which can
diverge from the blocks join (see the counterexample). -/
theorem c3_scanned_round_trip (caps : Capabilities) (doc : Doc) :
    (extract_scanned_pdf caps doc).text =
      String.intercalate "\n" ((List.range doc.pages.length).map (fun i =>
        String.intercalate " "
          ((((extract_scanned_pdf caps doc).blocks.filter (fun b => b.page == i + 1)).filter
            (fun b => b.text != "")).map (fun b => b.text)))) := by
  have h := scannedLoop_texts caps doc.pages 0
  simp only [extract_scanned_pdf]
  rw [h]
  simp only [Nat.zero_add]

end NovaOCR
